import Mathlib

/-!
Verification development for the product-sentiment-analysis service
(Temporal workflow + Express API + Redis store + Ollama scoring backend).

JavaScript numbers are modelled as rationals extended with NaN and the two
infinities (`JSNum`); machine floating point rounding is out of scope, the
arithmetic the pipeline performs on its small integer-like scores is exact.
The Redis store is modelled as a partial map from keys to strings, and the
stateful activities pass the store explicitly.  Randomness (Math.random) is
modelled as an explicit stream of rationals in [0, 1).  Fallible calls
(axios post, Temporal client start) are modelled with Except / explicit
outcome parameters.
-/

/-- Model of a JavaScript number: a finite rational, NaN, or an infinity. -/
inductive JSNum where
  | num (q : ℚ)
  | nan
  | inf
  | negInf
deriving DecidableEq, Repr

/-- JavaScript addition on modelled numbers (used by the score reduce). -/
def jadd : JSNum → JSNum → JSNum
  | JSNum.num a, JSNum.num b => JSNum.num (a + b)
  | JSNum.nan, _ => JSNum.nan
  | _, JSNum.nan => JSNum.nan
  | JSNum.inf, JSNum.negInf => JSNum.nan
  | JSNum.negInf, JSNum.inf => JSNum.nan
  | JSNum.inf, _ => JSNum.inf
  | _, JSNum.inf => JSNum.inf
  | JSNum.negInf, _ => JSNum.negInf
  | _, JSNum.negInf => JSNum.negInf

/-- JavaScript division on modelled numbers; in particular 0/0 = NaN. -/
def jdiv : JSNum → JSNum → JSNum
  | JSNum.num a, JSNum.num b =>
      if b = 0 then
        if a = 0 then JSNum.nan
        else if 0 < a then JSNum.inf else JSNum.negInf
      else JSNum.num (a / b)
  | JSNum.nan, _ => JSNum.nan
  | _, JSNum.nan => JSNum.nan
  | JSNum.inf, JSNum.inf => JSNum.nan
  | JSNum.inf, JSNum.negInf => JSNum.nan
  | JSNum.negInf, JSNum.inf => JSNum.nan
  | JSNum.negInf, JSNum.negInf => JSNum.nan
  | JSNum.inf, JSNum.num b => if b < 0 then JSNum.negInf else JSNum.inf
  | JSNum.negInf, JSNum.num b => if b < 0 then JSNum.inf else JSNum.negInf
  | JSNum.num _, JSNum.inf => JSNum.num 0
  | JSNum.num _, JSNum.negInf => JSNum.num 0

/-- Whether a modelled JavaScript number is a finite number. -/
def JSNum.isFinite : JSNum → Bool
  | JSNum.num _ => true
  | _ => false

/-- `sentimentScores.reduce((a, b) => a + b, 0)` from calculateAndStoreScore. -/
def jsSum (l : List JSNum) : JSNum := l.foldl jadd (JSNum.num 0)

/-- Decimal fraction digits of n/d (0 ≤ n < d), with fuel bounding the width. -/
def fracDigits : ℕ → ℕ → ℕ → String
  | 0, _, _ => ""
  | fuel + 1, n, d =>
      if n = 0 then ""
      else
        let n10 := n * 10
        Nat.repr (n10 / d) ++ fracDigits fuel (n10 % d) d

/-- Decimal string of a rational (exact when the expansion terminates);
models Number.prototype.toString on the modelled finite numbers. -/
def ratToString (q : ℚ) : String :=
  let sign := if q < 0 then "-" else ""
  let n := q.num.natAbs
  let d := q.den
  if n % d = 0 then sign ++ Nat.repr (n / d)
  else sign ++ Nat.repr (n / d) ++ "." ++ fracDigits 20 (n % d) d

/-- Model of JavaScript stringification of a number (`averageScore.toString()`). -/
def jsNumToString : JSNum → String
  | JSNum.nan => "NaN"
  | JSNum.inf => "Infinity"
  | JSNum.negInf => "-Infinity"
  | JSNum.num q => ratToString q

/-- Digits of a char list read as a decimal natural number. -/
def digitsToNat (l : List Char) : ℕ :=
  l.foldl (fun a c => a * 10 + (c.toNat - 48)) 0

/-- Skip the leading whitespace, as parseFloat does. -/
def skipWs : List Char → List Char
  | [] => []
  | c :: rest =>
      if c = ' ' ∨ c = '\t' ∨ c = '\n' ∨ c = '\r' then skipWs rest else c :: rest

/-- Does the char list start with the literal Infinity? -/
def isInfinityPrefix (l : List Char) : Bool :=
  l.take 8 = [ 'I', 'n', 'f', 'i', 'n', 'i', 't', 'y' ]

/-- Parse an unsigned decimal mantissa with optional fraction and exponent,
returning none when no digit is present (parseFloat then yields NaN). -/
def parseUnsigned (l : List Char) : Option ℚ :=
  let ds := l.takeWhile Char.isDigit
  let rest := l.dropWhile Char.isDigit
  let fs :=
    match rest with
    | '.' :: r => r.takeWhile Char.isDigit
    | _ => []
  let rest2 :=
    match rest with
    | '.' :: r => r.dropWhile Char.isDigit
    | _ => rest
  if ds.isEmpty ∧ fs.isEmpty then none
  else
    let mantissa : ℚ := (digitsToNat ds : ℚ) + (digitsToNat fs : ℚ) / (10 ^ fs.length)
    let expPart : ℤ :=
      match rest2 with
      | c :: r =>
          if c = 'e' ∨ c = 'E' then
            match r with
            | '-' :: r2 =>
                let es := r2.takeWhile Char.isDigit
                if es.isEmpty then 0 else -(digitsToNat es : ℤ)
            | '+' :: r2 =>
                let es := r2.takeWhile Char.isDigit
                if es.isEmpty then 0 else (digitsToNat es : ℤ)
            | r2 =>
                let es := r2.takeWhile Char.isDigit
                if es.isEmpty then 0 else (digitsToNat es : ℤ)
          else 0
      | [] => 0
    some (mantissa * (10 : ℚ) ^ expPart)

/-- Model of JavaScript parseFloat on char lists. -/
def parseFloatChars (l : List Char) : JSNum :=
  match skipWs l with
  | '-' :: r =>
      if isInfinityPrefix r then JSNum.negInf
      else
        match parseUnsigned r with
        | some q => JSNum.num (-q)
        | none => JSNum.nan
  | '+' :: r =>
      if isInfinityPrefix r then JSNum.inf
      else
        match parseUnsigned r with
        | some q => JSNum.num q
        | none => JSNum.nan
  | r =>
      if isInfinityPrefix r then JSNum.inf
      else
        match parseUnsigned r with
        | some q => JSNum.num q
        | none => JSNum.nan

/-- Model of JavaScript parseFloat (used by analyzeSentiment and the GET route). -/
def parseFloat (s : String) : JSNum := parseFloatChars s.toList

/-- The Redis store, modelled as a partial map from keys to string values. -/
def Store : Type := String → Option String

/-- redisClient.set: point update of the store. -/
def storeSet (st : Store) (k v : String) : Store :=
  fun x => if x = k then some v else st x

/-- The empty store. -/
def emptyStore : Store := fun _ => none

/-- Return value of calculateAndStoreScore. -/
structure CalcResult where
  productUUID : String
  averageScore : JSNum
  totalReviews : ℕ
deriving DecidableEq, Repr

/-- `sentimentScores.reduce((a, b) => a + b, 0) / sentimentScores.length`. -/
def averageScoreOf (scores : List JSNum) : JSNum :=
  jdiv (jsSum scores) (JSNum.num (scores.length : ℚ))

/-- Pure return value of calculateAndStoreScore from src/activities/index.js. -/
def calcReturn (productUUID : String) (scores : List JSNum) : CalcResult :=
  { productUUID := productUUID
    averageScore := averageScoreOf scores
    totalReviews := scores.length }

/-- calculateAndStoreScore from src/activities/index.js: computes the average,
stores it stringified under the key score:productUUID, returns the record. -/
def calculateAndStoreScore (st : Store) (productUUID : String) (scores : List JSNum) :
    CalcResult × Store :=
  let avg := averageScoreOf scores
  (calcReturn productUUID scores,
   storeSet st ("score:" ++ productUUID) (jsNumToString avg))

/-- storeProductInDB from src/activities/index.js: stores the product name
under the freshly generated uuid key and returns the uuid.  The two
Math.random draws behind the uuid are abstracted into the uuid argument. -/
def storeProductInDB (st : Store) (productUUID productName : String) : String × Store :=
  (productUUID, storeSet st productUUID productName)

/-- Outcome of the HTTP call to the scoring backend made by analyzeSentiment:
either a response whose data.response body is a string, or a transport error
(the axios post rejected). -/
inductive BackendResponse where
  | ok (body : String)
  | netError
deriving DecidableEq, Repr

/-- analyzeSentiment from src/activities/index.js: on a backend response it
returns parseFloat of the body unconditionally; only a transport error makes
the activity fail. -/
def analyzeSentiment (resp : BackendResponse) : Except String JSNum :=
  match resp with
  | BackendResponse.ok body => Except.ok (parseFloat body)
  | BackendResponse.netError => Except.error "network error"

theorem jsSum_map_num (a : ℚ) (qs : List ℚ) :
    (qs.map JSNum.num).foldl jadd (JSNum.num a) = JSNum.num (a + qs.sum) := by
  induction qs generalizing a with
  | nil => simp [jadd]
  | cons q qs ih => simp [List.foldl, jadd, ih, add_assoc]

theorem averageScoreOf_map_num (qs : List ℚ) (h : qs ≠ []) :
    averageScoreOf (qs.map JSNum.num) = JSNum.num (qs.sum / (qs.length : ℚ)) := by
  have hlen : (qs.length : ℚ) ≠ 0 := by
    have := (List.length_pos.mpr h).ne
    exact_mod_cast fun hc => this (by exact_mod_cast hc.symm)
  have hsum : jsSum (qs.map JSNum.num) = JSNum.num qs.sum := by
    simpa using jsSum_map_num 0 qs
  simp [averageScoreOf, hsum, jdiv, hlen]

/-- A stream of Math.random draws, consumed in program order. -/
def Rng : Type := ℕ → ℚ

/-- Validity of a random stream: every draw lies in [0, 1). -/
def RngValid (rng : Rng) : Prop := ∀ n, 0 ≤ rng n ∧ rng n < 1

/-- Math.floor(x * k) for a draw x, as a natural number. -/
def randFloor (x : ℚ) (k : ℕ) : ℕ := (⌊x * (k : ℚ)⌋).toNat

/-- Character for a base-36 digit, as Number.prototype.toString(36) prints it. -/
def digit36Char (d : ℕ) : Char :=
  if d < 10 then Char.ofNat (48 + d) else Char.ofNat (87 + d)

/-- Base-36 fraction digits of a draw in [0, 1), with fuel bounding the width;
models the digits after the 0. prefix of Math.random().toString(36). -/
def base36Digits : ℕ → ℚ → String
  | 0, _ => ""
  | fuel + 1, q =>
      if q = 0 then ""
      else
        let q36 := q * 36
        let d := (⌊q36⌋).toNat
        String.singleton (digit36Char d) ++ base36Digits fuel (q36 - (d : ℚ))

/-- The aspects list from scrapeReviews. -/
def aspects : List String :=
  ["quality", "durability", "performance", "value", "design", "features", "ease of use"]

/-- The positive patterns of sentimentPatterns; the aspect placeholder of each
template string is modelled as the function argument it gets replaced with. -/
def positivePatterns (productName : String) : List (String → String) :=
  [fun a => "Absolutely love the " ++ a ++ " of this " ++ productName,
   fun a => "The " ++ productName ++ "\x27s " ++ a ++ " exceeded my expectations",
   fun a => "Impressive " ++ a ++ ", definitely worth the investment",
   fun a => "Cannot say enough good things about the " ++ a]

/-- The negative patterns of sentimentPatterns. -/
def negativePatterns (productName : String) : List (String → String) :=
  [fun a => "Disappointed with the " ++ a ++ " of this " ++ productName,
   fun a => "The " ++ productName ++ "\x27s " ++ a ++ " needs improvement",
   fun a => "Not impressed with the " ++ a,
   fun a => "Expected better " ++ a ++ " for the price"]

/-- The neutral patterns of sentimentPatterns. -/
def neutralPatterns (productName : String) : List (String → String) :=
  [fun a => "The " ++ a ++ " is decent but could be better",
   fun a => "Average " ++ a ++ " compared to similar products",
   fun a => "Nothing special about the " ++ a]

/-- Pattern list selected by generateReviewText from the rating:
positive when rating >= 4, negative when rating <= 2, else neutral. -/
def patternsFor (productName : String) (rating : ℕ) : List (String → String) :=
  if 4 ≤ rating then positivePatterns productName
  else if rating ≤ 2 then negativePatterns productName
  else neutralPatterns productName

/-- One Fisher-Yates swap target: exchange positions i and j. -/
def swapList (l : List String) (i j : ℕ) : List String :=
  match l.get? i, l.get? j with
  | some a, some b => (l.set i b).set j a
  | _, _ => l

/-- The shuffleArray loop of scrapeReviews: for i from the end down to 1,
draw j = floor(random * (i + 1)) and swap; returns the list and the next
position of the random stream. -/
def shuffleAux (rng : Rng) : ℕ → ℕ → List String → List String × ℕ
  | 0, c, l => (l, c)
  | i + 1, c, l =>
      let j := randFloor (rng c) (i + 2)
      shuffleAux rng i (c + 1) (swapList l (i + 1) j)

/-- shuffleArray from scrapeReviews. -/
def shuffleArray (rng : Rng) (c : ℕ) (l : List String) : List String × ℕ :=
  shuffleAux rng (l.length - 1) c l

/-- The forEach body of generateReviewText: for each selected aspect draw a
pattern index, append the instantiated pattern, and append the separator
between aspects. -/
def appendAspects (rng : Rng) (patterns : List (String → String)) :
    List String → ℕ → String → String × ℕ
  | [], c, acc => (acc, c)
  | a :: rest, c, acc =>
      let idx := randFloor (rng c) patterns.length
      let p := patterns.getD idx (fun _ => "")
      let sep := if rest.isEmpty then "" else ". "
      appendAspects rng patterns rest (c + 1) (acc ++ p a ++ sep)

/-- generateReviewText from scrapeReviews: shuffle the aspects, keep between
1 and 3 of them, and concatenate one randomly chosen sentiment pattern per
kept aspect. -/
def generateReviewText (rng : Rng) (productName : String) (rating : ℕ) (c : ℕ) :
    String × ℕ :=
  let sc := shuffleArray rng c aspects
  let k := randFloor (rng sc.2) 3 + 1
  let selected := sc.1.take k
  appendAspects rng (patternsFor productName rating) selected (sc.2 + 1) ""

/-- A review record as built by scrapeReviews; the two ISO date strings are
modelled by their underlying epoch-millisecond values. -/
structure Review where
  id : ℕ
  rating : ℕ
  date : ℤ
  author : String
  text : String
  purchaseDate : ℤ
deriving DecidableEq, Repr

/-- The main loop of scrapeReviews, consuming random draws in program order:
daysAgo, rating, the author suffix, the draws of generateReviewText, and the
purchase-date offset. -/
def scrapeLoop (rng : Rng) (productName : String) (now : ℤ) :
    ℕ → ℕ → ℕ → List Review × ℕ
  | 0, _, c => ([], c)
  | n + 1, i, c =>
      let daysAgo := randFloor (rng c) 90
      let rating := randFloor (rng (c + 1)) 5 + 1
      let author := "User" ++ (base36Digits 20 (rng (c + 2))).take 6
      let tc := generateReviewText rng productName rating (c + 3)
      let purchaseDate := now - ((daysAgo + randFloor (rng tc.2) 30 : ℕ) : ℤ) * 86400000
      let review : Review :=
        { id := i + 1
          rating := rating
          date := now - (daysAgo : ℤ) * 86400000
          author := author
          text := tc.1
          purchaseDate := purchaseDate }
      let rest := scrapeLoop rng productName now n (i + 1) (tc.2 + 1)
      (review :: rest.1, rest.2)

/-- Insert a review into a list kept in descending date order; together with
the fold below this models the stable comparison sort
mockReviews.sort((a, b) => new Date(b.date) - new Date(a.date)). -/
def insertByDate (r : Review) : List Review → List Review
  | [] => [r]
  | x :: xs => if x.date ≤ r.date then r :: x :: xs else x :: insertByDate r xs

/-- Sort reviews with the newest date first. -/
def sortByDateDesc (l : List Review) : List Review :=
  l.foldr insertByDate []

/-- scrapeReviews from src/activities/index.js: generate numberOfReviews = 5
mock reviews and sort them newest first. -/
def scrapeReviews (rng : Rng) (productName : String) (now : ℤ) : List Review :=
  sortByDateDesc (scrapeLoop rng productName now 5 0 0).1

/-- The output of scrapeReviews has its dates in non-increasing order. -/
def DateSorted (l : List Review) : Prop :=
  List.Pairwise (fun a b => b.date ≤ a.date) l

/-- An activity invocation scheduled by the workflow, as recorded in a trace. -/
inductive Invocation where
  | register (productName : String)
  | fetch (productName : String)
  | score (review : Review)
  | aggregate (productUUID : String) (scores : List JSNum)
deriving DecidableEq, Repr

/-- Outcomes of the four proxied activities as seen by one workflow run; each
field gives the terminal outcome (value or final failure after retries) of an
invocation of that activity. -/
structure ActivityOracle where
  storeProductInDB : String → Except String String
  scrapeReviews : String → Except String (List Review)
  analyzeSentiment : Review → Except String JSNum
  calculateAndStoreScore : String → List JSNum → Except String CalcResult

/-- Promise.all over the per-review scoring results: succeeds with the list of
values in review order, or fails when any one invocation failed terminally. -/
def collectAll : List (Except String JSNum) → Except String (List JSNum)
  | [] => Except.ok []
  | Except.ok v :: rest =>
      match collectAll rest with
      | Except.ok vs => Except.ok (v :: vs)
      | Except.error e => Except.error e
  | Except.error e :: _ => Except.error e

/-- productSentimentWorkflow from src/workflows/sentimentAnalysis.workflow.js,
with an explicit trace of the activity invocations it schedules: register the
product, fetch the reviews, fan out one scoring invocation per review
(Promise.all schedules all of them before any is awaited, so all appear in
the trace even when one fails), and aggregate only once every scoring
invocation succeeded.  A failure anywhere is rethrown and ends the run. -/
def productSentimentWorkflow (o : ActivityOracle) (productName : String) :
    Except String CalcResult × List Invocation :=
  match o.storeProductInDB productName with
  | Except.error e => (Except.error e, [Invocation.register productName])
  | Except.ok productUUID =>
    match o.scrapeReviews productName with
    | Except.error e =>
        (Except.error e, [Invocation.register productName, Invocation.fetch productName])
    | Except.ok reviews =>
      let scheduled := reviews.map Invocation.score
      match collectAll (reviews.map o.analyzeSentiment) with
      | Except.error e =>
          (Except.error e,
           [Invocation.register productName, Invocation.fetch productName] ++ scheduled)
      | Except.ok sentimentResults =>
        match o.calculateAndStoreScore productUUID sentimentResults with
        | Except.error e =>
            (Except.error e,
             [Invocation.register productName, Invocation.fetch productName] ++ scheduled
               ++ [Invocation.aggregate productUUID sentimentResults])
        | Except.ok result =>
            (Except.ok result,
             [Invocation.register productName, Invocation.fetch productName] ++ scheduled
               ++ [Invocation.aggregate productUUID sentimentResults])

/-- A workflow start call made through the Temporal client. -/
structure StartedWorkflow where
  workflowId : String
  arg : String
  taskQueue : String
deriving DecidableEq, Repr

/-- Response of the POST /api/analyze-sentiment route. -/
inductive PostResponse where
  | accepted (message : String) (workflowId : String)
  | badRequest (error : String)
  | serverError (error : String)
deriving DecidableEq, Repr

/-- Whether a POST response is the 400 validation response. -/
def PostResponse.isBadRequest : PostResponse → Bool
  | PostResponse.badRequest _ => true
  | _ => false

/-- The POST /api/analyze-sentiment handler from src/api/routes.js.  The body
productName is an Option (missing or a string), now is Date.now() in epoch
milliseconds, and startOk tells whether temporalClient.workflow.start
succeeded.  Returns the response together with the start call made, if any;
the response is built from the start handle alone, never from a workflow
result, so the route answers without waiting for the workflow. -/
def postAnalyzeSentiment (body : Option String) (now : ℕ) (startOk : Bool) :
    PostResponse × Option StartedWorkflow :=
  match body with
  | none => (PostResponse.badRequest "Product name is required", none)
  | some productName =>
      if productName = "" then
        (PostResponse.badRequest "Product name is required", none)
      else
        let wf : StartedWorkflow :=
          { workflowId := "sentiment-analysis-" ++ productName ++ "-" ++ Nat.repr now
            arg := productName
            taskQueue := "sentiment-analysis" }
        if startOk then
          (PostResponse.accepted "Sentiment analysis workflow started" wf.workflowId,
           some wf)
        else
          (PostResponse.serverError "Failed to start sentiment analysis", some wf)

/-- Response of the GET /api/sentiment/:productUUID route. -/
inductive GetResponse where
  | found (productUUID : String) (productName : Option String) (sentimentScore : JSNum)
  | notFound (error : String)
deriving DecidableEq, Repr

/-- The GET /api/sentiment/:productUUID handler from src/api/routes.js: read
the stored score and product name, answer 404 when the score value is falsy
(absent or the empty string), else 200 with the score parsed as a number. -/
def getSentiment (st : Store) (productUUID : String) : GetResponse :=
  let score := st ("score:" ++ productUUID)
  let productName := st productUUID
  match score with
  | none => GetResponse.notFound "Sentiment score not found for this product"
  | some s =>
      if s = "" then GetResponse.notFound "Sentiment score not found for this product"
      else GetResponse.found productUUID productName (parseFloat s)

/-- The defaultActivityRetryOptions block passed to Worker.create in the
worker source, intervals as the duration strings it writes. -/
structure RetryOptions where
  initialInterval : String
  maximumInterval : String
  backoffCoefficient : ℚ
  maximumAttempts : ℕ
deriving DecidableEq, Repr

/-- The retry options configured in the worker source. -/
def defaultActivityRetryOptions : RetryOptions :=
  { initialInterval := "1s"
    maximumInterval := "1m"
    backoffCoefficient := 2
    maximumAttempts := 3 }

/-- Seconds denoted by a duration string such as 1s or 1m. -/
def durationSeconds (s : String) : ℚ :=
  let ds := s.toList.takeWhile Char.isDigit
  let unit := s.toList.dropWhile Char.isDigit
  let n : ℚ := (digitsToNat ds : ℚ)
  if unit = ['m'] then 60 * n
  else if unit = ['h'] then 3600 * n
  else n

/-- A retry policy with numeric fields; maximumAttempts = 0 means unlimited. -/
structure RetryPolicy where
  initialInterval : ℚ
  maximumInterval : ℚ
  backoffCoefficient : ℚ
  maximumAttempts : ℕ
deriving DecidableEq, Repr

/-- Numeric view of a configured retry-options block. -/
def toPolicy (o : RetryOptions) : RetryPolicy :=
  { initialInterval := durationSeconds o.initialInterval
    maximumInterval := durationSeconds o.maximumInterval
    backoffCoefficient := o.backoffCoefficient
    maximumAttempts := o.maximumAttempts }

/-- Decision of the retry machinery after a failed attempt. -/
inductive RetryAction where
  | retryAfter (delay : ℚ)
  | giveUp
deriving DecidableEq, Repr

/-- Modelled from the spec: the Retry Policy Engine (the Temporal SDK retry
loop, which is not part of this repository) — after a failure on the given
1-indexed attempt, give up when attempt >= maximumAttempts (when set), else
retry after min(initialInterval * backoffCoefficient ^ (attempt - 1),
maximumInterval). -/
def nextAction (attempt : ℕ) (p : RetryPolicy) : RetryAction :=
  if p.maximumAttempts ≠ 0 ∧ p.maximumAttempts ≤ attempt then RetryAction.giveUp
  else
    RetryAction.retryAfter
      (min (p.initialInterval * p.backoffCoefficient ^ (attempt - 1)) p.maximumInterval)

theorem str_empty_of_length (s : String) (h : s.length = 0) : s = "" := by
  cases s with
  | mk data =>
    cases data with
    | nil => rfl
    | cons c cs => simp [String.length] at h

theorem append_ne_empty_left (s t : String) (h : s ≠ "") : s ++ t ≠ "" := by
  intro he
  apply h
  apply str_empty_of_length
  have hl := congrArg String.length he
  have h0 : ("" : String).length = 0 := rfl
  rw [String.length_append, h0] at hl
  omega

theorem append_ne_empty_right (s t : String) (h : t ≠ "") : s ++ t ≠ "" := by
  intro he
  apply h
  apply str_empty_of_length
  have hl := congrArg String.length he
  have h0 : ("" : String).length = 0 := rfl
  rw [String.length_append, h0] at hl
  omega

theorem randFloor_lt (x : ℚ) (k : ℕ) (h0 : 0 ≤ x) (h1 : x < 1) (hk : 0 < k) :
    randFloor x k < k := by
  have hxk : x * (k : ℚ) < (k : ℚ) := by
    have hkq : (0 : ℚ) < (k : ℚ) := by exact_mod_cast hk
    calc x * (k : ℚ) < 1 * (k : ℚ) := by exact mul_lt_mul_of_pos_right h1 hkq
    _ = (k : ℚ) := one_mul _
  have hfl : ⌊x * (k : ℚ)⌋ < (k : ℤ) := Int.floor_lt.mpr (by exact_mod_cast hxk)
  unfold randFloor
  omega

theorem patternsFor_length_pos (productName : String) (rating : ℕ) :
    0 < (patternsFor productName rating).length := by
  unfold patternsFor
  split
  · simp [positivePatterns]
  · split
    · simp [negativePatterns]
    · simp [neutralPatterns]

theorem patternsFor_applied_ne_empty (productName : String) (rating : ℕ)
    (p : String → String) (hp : p ∈ patternsFor productName rating) (a : String) :
    p a ≠ "" := by
  have hcases :
      (p ∈ positivePatterns productName) ∨ (p ∈ negativePatterns productName) ∨
        (p ∈ neutralPatterns productName) := by
    unfold patternsFor at hp
    split at hp
    · exact Or.inl hp
    · split at hp
      · exact Or.inr (Or.inl hp)
      · exact Or.inr (Or.inr hp)
  rcases hcases with h | h | h
  · simp only [positivePatterns, List.mem_cons, List.not_mem_nil, or_false] at h
    rcases h with h | h | h | h <;> subst h
    · exact append_ne_empty_left _ _ (append_ne_empty_left _ _
        (append_ne_empty_left _ _ (by decide)))
    · exact append_ne_empty_left _ _ (append_ne_empty_left _ _
        (append_ne_empty_left _ _ (append_ne_empty_left _ _ (by decide))))
    · exact append_ne_empty_left _ _ (append_ne_empty_left _ _ (by decide))
    · exact append_ne_empty_left _ _ (by decide)
  · simp only [negativePatterns, List.mem_cons, List.not_mem_nil, or_false] at h
    rcases h with h | h | h | h <;> subst h
    · exact append_ne_empty_left _ _ (append_ne_empty_left _ _
        (append_ne_empty_left _ _ (by decide)))
    · exact append_ne_empty_left _ _ (append_ne_empty_left _ _
        (append_ne_empty_left _ _ (append_ne_empty_left _ _ (by decide))))
    · exact append_ne_empty_left _ _ (by decide)
    · exact append_ne_empty_left _ _ (append_ne_empty_left _ _ (by decide))
  · simp only [neutralPatterns, List.mem_cons, List.not_mem_nil, or_false] at h
    rcases h with h | h | h <;> subst h
    · exact append_ne_empty_left _ _ (append_ne_empty_left _ _ (by decide))
    · exact append_ne_empty_left _ _ (append_ne_empty_left _ _ (by decide))
    · exact append_ne_empty_left _ _ (by decide)

theorem swapList_length (l : List String) (i j : ℕ) :
    (swapList l i j).length = l.length := by
  unfold swapList
  split
  · simp
  · rfl

theorem shuffleAux_length (rng : Rng) :
    ∀ (i c : ℕ) (l : List String), ((shuffleAux rng i c l).1).length = l.length := by
  intro i
  induction i with
  | zero => intro c l; rfl
  | succ n ih =>
      intro c l
      unfold shuffleAux
      rw [ih]
      exact swapList_length l (n + 1) _

theorem shuffleArray_length (rng : Rng) (c : ℕ) (l : List String) :
    ((shuffleArray rng c l).1).length = l.length :=
  shuffleAux_length rng (l.length - 1) c l

theorem appendAspects_ne_empty (rng : Rng) (hrng : RngValid rng)
    (productName : String) (rating : ℕ) :
    ∀ (l : List String) (c : ℕ) (acc : String),
      (acc ≠ "" ∨ l ≠ []) →
      (appendAspects rng (patternsFor productName rating) l c acc).1 ≠ "" := by
  intro l
  induction l with
  | nil =>
      intro c acc h
      rcases h with h | h
      · exact h
      · exact absurd rfl h
  | cons a rest ih =>
      intro c acc _
      unfold appendAspects
      apply ih
      left
      apply append_ne_empty_left
      apply append_ne_empty_right
      set pats := patternsFor productName rating with hpats
      have hlen : 0 < pats.length := patternsFor_length_pos productName rating
      have hidx : randFloor (rng c) pats.length < pats.length :=
        randFloor_lt (rng c) pats.length (hrng c).1 (hrng c).2 hlen
      have hmem : pats.getD (randFloor (rng c) pats.length) (fun _ => "") ∈ pats := by
        rw [List.getD_eq_getElem pats (fun _ => "") hidx]
        exact List.getElem_mem hidx
      exact patternsFor_applied_ne_empty productName rating _ (hpats ▸ hmem) a

theorem generateReviewText_ne_empty (rng : Rng) (hrng : RngValid rng)
    (productName : String) (rating : ℕ) (c : ℕ) :
    (generateReviewText rng productName rating c).1 ≠ "" := by
  unfold generateReviewText
  apply appendAspects_ne_empty rng hrng productName rating
  right
  have hlen : ((shuffleArray rng c aspects).1).length = 7 := by
    rw [shuffleArray_length]
    rfl
  intro htake
  have hlen2 := congrArg List.length htake
  rw [List.length_take, hlen] at hlen2
  simp only [List.length_nil] at hlen2
  omega

theorem scrapeLoop_rating_text (rng : Rng) (hrng : RngValid rng)
    (productName : String) (now : ℤ) :
    ∀ (n i c : ℕ) (r : Review), r ∈ (scrapeLoop rng productName now n i c).1 →
      1 ≤ r.rating ∧ r.rating ≤ 5 ∧ r.text ≠ "" := by
  intro n
  induction n with
  | zero => intro i c r hr; simp [scrapeLoop] at hr
  | succ m ih =>
      intro i c r hr
      unfold scrapeLoop at hr
      simp only [List.mem_cons] at hr
      rcases hr with hr | hr
      · subst hr
        have hrat : randFloor (rng (c + 1)) 5 < 5 :=
          randFloor_lt _ 5 (hrng (c + 1)).1 (hrng (c + 1)).2 (by omega)
        refine ⟨?_, ?_, ?_⟩
        · show 1 ≤ randFloor (rng (c + 1)) 5 + 1
          omega
        · show randFloor (rng (c + 1)) 5 + 1 ≤ 5
          omega
        · exact generateReviewText_ne_empty rng hrng productName _ (c + 3)
      · exact ih (i + 1) _ r hr

theorem scrapeLoop_length (rng : Rng) (productName : String) (now : ℤ) :
    ∀ (n i c : ℕ), ((scrapeLoop rng productName now n i c).1).length = n := by
  intro n
  induction n with
  | zero => intro i c; rfl
  | succ m ih =>
      intro i c
      unfold scrapeLoop
      simp only [List.length_cons]
      rw [ih]

theorem mem_insertByDate (x r : Review) (l : List Review) :
    x ∈ insertByDate r l ↔ x = r ∨ x ∈ l := by
  induction l with
  | nil => simp [insertByDate]
  | cons y ys ih =>
      unfold insertByDate
      split
      · simp
      · simp only [List.mem_cons, ih]
        tauto

theorem insertByDate_length (r : Review) (l : List Review) :
    (insertByDate r l).length = l.length + 1 := by
  induction l with
  | nil => rfl
  | cons y ys ih =>
      unfold insertByDate
      split
      · simp
      · simp [ih]

theorem insertByDate_sorted (r : Review) (l : List Review) (h : DateSorted l) :
    DateSorted (insertByDate r l) := by
  induction l with
  | nil => simp [insertByDate, DateSorted]
  | cons y ys ih =>
      unfold DateSorted at h
      rw [List.pairwise_cons] at h
      unfold insertByDate
      split
      · rename_i hy
        unfold DateSorted
        rw [List.pairwise_cons]
        constructor
        · intro z hz
          rcases List.mem_cons.mp hz with hz | hz
          · subst hz; exact hy
          · exact le_trans (h.1 z hz) hy
        · rw [List.pairwise_cons]
          exact h
      · rename_i hy
        unfold DateSorted
        rw [List.pairwise_cons]
        constructor
        · intro z hz
          rcases (mem_insertByDate z r ys).mp hz with hz | hz
          · subst hz; omega
          · exact h.1 z hz
        · exact ih h.2

theorem sortByDateDesc_sorted (l : List Review) : DateSorted (sortByDateDesc l) := by
  induction l with
  | nil => simp [sortByDateDesc, DateSorted]
  | cons y ys ih => exact insertByDate_sorted y _ ih

theorem sortByDateDesc_length (l : List Review) :
    (sortByDateDesc l).length = l.length := by
  induction l with
  | nil => rfl
  | cons y ys ih =>
      unfold sortByDateDesc
      simp only [List.foldr_cons]
      rw [insertByDate_length]
      unfold sortByDateDesc at ih
      rw [ih]
      rfl

theorem mem_sortByDateDesc (x : Review) (l : List Review) :
    x ∈ sortByDateDesc l ↔ x ∈ l := by
  induction l with
  | nil => simp [sortByDateDesc]
  | cons y ys ih =>
      unfold sortByDateDesc
      simp only [List.foldr_cons]
      rw [mem_insertByDate]
      unfold sortByDateDesc at ih
      rw [ih]
      simp

theorem collectAll_map_ok (f : Review → JSNum) (g : Review → Except String JSNum) :
    ∀ (l : List Review), (∀ r ∈ l, g r = Except.ok (f r)) →
      collectAll (l.map g) = Except.ok (l.map f) := by
  intro l
  induction l with
  | nil => intro _; rfl
  | cons r rest ih =>
      intro h
      have hr : g r = Except.ok (f r) := h r (List.mem_cons_self r rest)
      have hrest := ih (fun x hx => h x (List.mem_cons_of_mem r hx))
      simp only [List.map_cons, collectAll, hr, hrest]

theorem collectAll_ok_mem (l : List (Except String JSNum)) (vs : List JSNum)
    (h : collectAll l = Except.ok vs) :
    ∀ x ∈ l, ∃ v, x = Except.ok v := by
  induction l generalizing vs with
  | nil => intro x hx; simp at hx
  | cons y ys ih =>
      intro x hx
      cases y with
      | error e => simp [collectAll] at h
      | ok v =>
          rcases List.mem_cons.mp hx with hx | hx
          · exact ⟨v, hx⟩
          · unfold collectAll at h
            cases hys : collectAll ys with
            | error e => rw [hys] at h; simp at h
            | ok ws => exact ih ws hys x hx

theorem collectAll_error_of_mem (l : List (Except String JSNum)) (e : String)
    (hx : Except.error e ∈ l) : ∃ e2, collectAll l = Except.error e2 := by
  induction l with
  | nil => simp at hx
  | cons y ys ih =>
      rcases List.mem_cons.mp hx with hy | hy
      · exact ⟨e, by rw [← hy]; rfl⟩
      · cases y with
        | error e3 => exact ⟨e3, rfl⟩
        | ok v =>
            rcases ih hy with ⟨e2, he2⟩
            exact ⟨e2, by simp only [collectAll, he2]⟩

/-- C1: with registration and review fetching completed, the aggregation
activity (calculateAndStoreScore) appears in the schedule only if every one
of the N scoring invocations (analyzeSentiment, one per fetched review)
reached a successful terminal outcome; and if any one of them failed
terminally, the workflow run fails and no aggregation over a partial subset
of scores is ever scheduled. -/
theorem workflow_join_barrier (o : ActivityOracle) (p uuid : String)
    (reviews : List Review)
    (hreg : o.storeProductInDB p = Except.ok uuid)
    (hfetch : o.scrapeReviews p = Except.ok reviews) :
    (∀ u s, Invocation.aggregate u s ∈ (productSentimentWorkflow o p).2 →
        ∀ r ∈ reviews, ∃ v, o.analyzeSentiment r = Except.ok v) ∧
    ((∃ r ∈ reviews, ∃ e, o.analyzeSentiment r = Except.error e) →
        (∃ e, (productSentimentWorkflow o p).1 = Except.error e) ∧
        ∀ u s, Invocation.aggregate u s ∉ (productSentimentWorkflow o p).2) := by
  cases hcol : collectAll (reviews.map o.analyzeSentiment) with
  | error e =>
      constructor
      · intro u s hmem
        simp only [productSentimentWorkflow, hreg, hfetch, hcol, List.mem_append,
          List.mem_cons, List.not_mem_nil, List.mem_map] at hmem
        rcases hmem with (h | h | h) | ⟨r, _, h⟩ <;> simp at h
      · intro _
        constructor
        · exact ⟨e, by simp only [productSentimentWorkflow, hreg, hfetch, hcol]⟩
        · intro u s hmem
          simp only [productSentimentWorkflow, hreg, hfetch, hcol, List.mem_append,
            List.mem_cons, List.not_mem_nil, List.mem_map] at hmem
          rcases hmem with (h | h | h) | ⟨r, _, h⟩ <;> simp at h
  | ok vs =>
      constructor
      · intro u s _ r hr
        exact collectAll_ok_mem _ vs hcol (o.analyzeSentiment r)
          (List.mem_map.mpr ⟨r, hr, rfl⟩)
      · intro ⟨r, hr, e, he⟩
        rcases collectAll_error_of_mem (reviews.map o.analyzeSentiment) e
          (he ▸ List.mem_map.mpr ⟨r, hr, rfl⟩) with ⟨e2, he2⟩
        rw [hcol] at he2
        simp at he2

/-- A review used by the concrete workflow runs below. -/
def demoReview : Review :=
  { id := 1, rating := 5, date := 0, author := "u", text := "t", purchaseDate := 0 }

/-- A fully successful activity oracle for a one-review product. -/
def demoOracle : ActivityOracle :=
  { storeProductInDB := fun _ => Except.ok "uuid1"
    scrapeReviews := fun _ => Except.ok [demoReview]
    analyzeSentiment := fun _ => Except.ok (JSNum.num 7)
    calculateAndStoreScore := fun u s => Except.ok (calcReturn u s) }

/-- The same oracle with a terminally failing scoring activity. -/
def demoOracleFail : ActivityOracle :=
  { storeProductInDB := fun _ => Except.ok "uuid1"
    scrapeReviews := fun _ => Except.ok [demoReview]
    analyzeSentiment := fun _ => Except.error "boom"
    calculateAndStoreScore := fun u s => Except.ok (calcReturn u s) }

/-- Witness for C1 at a concrete failing run. -/
theorem workflow_join_barrier_witness :
    (∃ e, (productSentimentWorkflow demoOracleFail "Phone").1 = Except.error e) ∧
    Invocation.aggregate "uuid1" [] ∉ (productSentimentWorkflow demoOracleFail "Phone").2 := by
  have h := (workflow_join_barrier demoOracleFail "Phone" "uuid1" [demoReview] rfl rfl).2
    ⟨demoReview, List.mem_cons_self demoReview [], "boom", rfl⟩
  exact ⟨h.1, h.2 "uuid1" []⟩

/-- C4: on an all-success run the workflow schedules exactly registration,
review fetching, one scoring invocation per review in listed order, and one
aggregation with the product identifier from step 1 and the scores in review
order; its result is the record with that identifier, the average score and
totalReviews = N. -/
theorem workflow_pipeline_order (o : ActivityOracle) (p uuid : String)
    (reviews : List Review) (f : Review → JSNum)
    (hreg : o.storeProductInDB p = Except.ok uuid)
    (hfetch : o.scrapeReviews p = Except.ok reviews)
    (hscore : ∀ r ∈ reviews, o.analyzeSentiment r = Except.ok (f r))
    (hagg : ∀ u s, o.calculateAndStoreScore u s = Except.ok (calcReturn u s)) :
    (productSentimentWorkflow o p).1 =
      Except.ok { productUUID := uuid
                  averageScore := averageScoreOf (reviews.map f)
                  totalReviews := reviews.length } ∧
    (productSentimentWorkflow o p).2 =
      [Invocation.register p, Invocation.fetch p] ++ reviews.map Invocation.score
        ++ [Invocation.aggregate uuid (reviews.map f)] := by
  have hcol := collectAll_map_ok f o.analyzeSentiment reviews hscore
  constructor
  · simp only [productSentimentWorkflow, hreg, hfetch, hcol, hagg uuid (reviews.map f)]
    simp [calcReturn]
  · simp only [productSentimentWorkflow, hreg, hfetch, hcol, hagg uuid (reviews.map f)]

/-- Witness for C4 at a concrete successful one-review run. -/
theorem workflow_pipeline_order_witness :
    (productSentimentWorkflow demoOracle "Phone").1 =
      Except.ok { productUUID := "uuid1"
                  averageScore := JSNum.num 7
                  totalReviews := 1 } ∧
    (productSentimentWorkflow demoOracle "Phone").2 =
      [Invocation.register "Phone", Invocation.fetch "Phone",
       Invocation.score demoReview, Invocation.aggregate "uuid1" [JSNum.num 7]] := by
  have h := workflow_pipeline_order demoOracle "Phone" "uuid1" [demoReview]
    (fun _ => JSNum.num 7) rfl rfl (fun r _ => rfl) (fun u s => rfl)
  constructor
  · have h1 : List.map (fun _ => JSNum.num 7) [demoReview] = List.map JSNum.num [(7 : ℚ)] :=
      rfl
    rw [h.1, h1, averageScoreOf_map_num [(7 : ℚ)] (by simp)]
    norm_num
  · rw [h.2]
    rfl

/-- C2: for every non-empty list of numeric scores, calculateAndStoreScore
returns the record with the arithmetic mean of the scores and
totalReviews = list length, and stores the stringified average under the
key score:productUUID. -/
theorem calculateAndStoreScore_mean (st : Store) (uuid : String) (qs : List ℚ)
    (h : qs ≠ []) :
    (calculateAndStoreScore st uuid (qs.map JSNum.num)).1 =
      { productUUID := uuid
        averageScore := JSNum.num (qs.sum / (qs.length : ℚ))
        totalReviews := qs.length } ∧
    (calculateAndStoreScore st uuid (qs.map JSNum.num)).2 =
      storeSet st ("score:" ++ uuid)
        (jsNumToString (JSNum.num (qs.sum / (qs.length : ℚ)))) := by
  have havg := averageScoreOf_map_num qs h
  constructor
  · simp [calculateAndStoreScore, calcReturn, havg]
  · simp [calculateAndStoreScore, havg]

/-- Witness for C2: scores [2, 4, 6, 8] give averageScore 5, totalReviews 4,
and the store receives "5" under the score key. -/
theorem calculateAndStoreScore_mean_witness :
    ([2, 4, 6, 8] : List ℚ) ≠ [] ∧
    (calculateAndStoreScore emptyStore "p1" (([2, 4, 6, 8] : List ℚ).map JSNum.num)).1 =
      { productUUID := "p1", averageScore := JSNum.num 5, totalReviews := 4 } ∧
    (calculateAndStoreScore emptyStore "p1"
        (([2, 4, 6, 8] : List ℚ).map JSNum.num)).2 "score:p1" = some "5" := by
  have h := calculateAndStoreScore_mean emptyStore "p1" [2, 4, 6, 8] (by simp)
  have havg : (([2, 4, 6, 8] : List ℚ).sum / ((([2, 4, 6, 8] : List ℚ).length : ℕ) : ℚ)) =
      (5 : ℚ) := by
    norm_num
  refine ⟨by simp, ?_, ?_⟩
  · rw [h.1, havg]
    simp
  · rw [h.2, havg]
    decide

theorem parseFloat_not_a_number : parseFloat "not a number" = JSNum.nan := rfl

theorem parseFloat_five : parseFloat "5" = JSNum.num 5 := by
  have h : parseFloat "5" =
      JSNum.num (((digitsToNat ['5'] : ℚ) + (digitsToNat ([] : List Char) : ℚ) / 10 ^ (0 : ℕ)) *
        (10 : ℚ) ^ (0 : ℤ)) := rfl
  have h1 : digitsToNat ['5'] = 5 := by decide
  have h2 : digitsToNat ([] : List Char) = 0 := rfl
  rw [h, h1, h2]
  norm_num

theorem parseFloat_fortytwo : parseFloat "42" = JSNum.num 42 := by
  have h : parseFloat "42" =
      JSNum.num (((digitsToNat ['4', '2'] : ℚ) + (digitsToNat ([] : List Char) : ℚ) /
        10 ^ (0 : ℕ)) * (10 : ℚ) ^ (0 : ℤ)) := rfl
  have h1 : digitsToNat ['4', '2'] = 42 := by decide
  have h2 : digitsToNat ([] : List Char) = 0 := rfl
  rw [h, h1, h2]
  norm_num

/-- C3 (evidence of the code bug): analyzeSentiment does no validation of the
scoring-backend response — on the non-numeric body "not a number" it
succeeds with NaN instead of failing, and it passes the out-of-range score
42 through as a successful result. -/
theorem analyzeSentiment_no_validation :
    analyzeSentiment (BackendResponse.ok "not a number") = Except.ok JSNum.nan ∧
    analyzeSentiment (BackendResponse.ok "42") = Except.ok (JSNum.num 42) ∧
    JSNum.nan.isFinite = false := by
  refine ⟨?_, ?_, rfl⟩
  · show Except.ok (parseFloat "not a number") = Except.ok JSNum.nan
    rw [parseFloat_not_a_number]
  · show Except.ok (parseFloat "42") = Except.ok (JSNum.num 42)
    rw [parseFloat_fortytwo]

/-- C5: a POST with a non-missing, non-empty productName and a successful
client start answers with the workflowId
sentiment-analysis-productName-unixMillis; the handler is a function of the
request and the start handle only, never of a workflow result, so it answers
without waiting for the workflow to finish. -/
theorem postAnalyzeSentiment_spec (p : String) (now : ℕ) (h : p ≠ "") :
    (postAnalyzeSentiment (some p) now true).1 =
      PostResponse.accepted "Sentiment analysis workflow started"
        ("sentiment-analysis-" ++ p ++ "-" ++ Nat.repr now) ∧
    (postAnalyzeSentiment (some p) now true).2 =
      some { workflowId := "sentiment-analysis-" ++ p ++ "-" ++ Nat.repr now
             arg := p
             taskQueue := "sentiment-analysis" } := by
  simp [postAnalyzeSentiment, h]

/-- Witness for C5 at productName "iPhone 15" and a concrete start time. -/
theorem postAnalyzeSentiment_spec_witness :
    ("iPhone 15" : String) ≠ "" ∧
    (postAnalyzeSentiment (some "iPhone 15") 1700000000000 true).1 =
      PostResponse.accepted "Sentiment analysis workflow started"
        "sentiment-analysis-iPhone 15-1700000000000" := by
  have h := postAnalyzeSentiment_spec "iPhone 15" 1700000000000 (by decide)
  refine ⟨by decide, ?_⟩
  rw [h.1]
  decide

/-- C6: the POST route answers 400 exactly when the body productName is
missing or empty, and then no workflow start call is made. -/
theorem postAnalyzeSentiment_badRequest_iff (body : Option String) (now : ℕ)
    (startOk : Bool) :
    ((postAnalyzeSentiment body now startOk).1.isBadRequest = true ↔
      body = none ∨ body = some "") ∧
    ((postAnalyzeSentiment body now startOk).1.isBadRequest = true →
      (postAnalyzeSentiment body now startOk).2 = none) := by
  cases body with
  | none => simp [postAnalyzeSentiment, PostResponse.isBadRequest]
  | some p =>
      by_cases hp : p = "" <;> cases startOk <;>
        simp [postAnalyzeSentiment, hp, PostResponse.isBadRequest]

/-- C7: the GET route answers 404 when no score is recorded under
score:productUUID, and otherwise (a recorded stringified average is never
empty) answers 200 with the stored product name and the stored score parsed
as a number. -/
theorem getSentiment_spec (st : Store) (uuid : String) :
    (st ("score:" ++ uuid) = none →
      getSentiment st uuid =
        GetResponse.notFound "Sentiment score not found for this product") ∧
    (∀ s, st ("score:" ++ uuid) = some s → s ≠ "" →
      getSentiment st uuid = GetResponse.found uuid (st uuid) (parseFloat s)) := by
  constructor
  · intro h
    simp [getSentiment, h]
  · intro s hs hne
    simp [getSentiment, hs, hne]

/-- A store holding one product record and its score, as the pipeline writes
them. -/
def demoStore : Store := storeSet (storeSet emptyStore "p1" "Widget") "score:p1" "5"

/-- Witness for C7 on a store holding name "Widget" and score "5". -/
theorem getSentiment_spec_witness :
    demoStore ("score:" ++ "p1") = some "5" ∧
    getSentiment demoStore "p1" =
      GetResponse.found "p1" (some "Widget") (JSNum.num 5) := by
  have hs : demoStore ("score:" ++ "p1") = some "5" := by decide
  have h := (getSentiment_spec demoStore "p1").2 "5" hs (by decide)
  refine ⟨hs, ?_⟩
  rw [h, parseFloat_five]
  decide

/-- C8: the worker configuration declares the default activity retry options
initialInterval 1s, maximumInterval 1m, backoffCoefficient 2,
maximumAttempts 3; under the retry engine a failed attempt is retried
exactly when its 1-indexed number is below 3, so maximumAttempts 3 permits
exactly the two retries after the first failure. -/
theorem defaultRetryPolicy_spec :
    defaultActivityRetryOptions =
      { initialInterval := "1s", maximumInterval := "1m"
        backoffCoefficient := 2, maximumAttempts := 3 } ∧
    (∀ attempt : ℕ,
      nextAction attempt (toPolicy defaultActivityRetryOptions) = RetryAction.giveUp ↔
        3 ≤ attempt) := by
  constructor
  · rfl
  · intro a
    have hp : (toPolicy defaultActivityRetryOptions).maximumAttempts = 3 := rfl
    unfold nextAction
    rw [hp]
    by_cases h : 3 ≤ a
    · simp [h]
    · simp [h]

/-- C9: for every product name and valid random stream, scrapeReviews
returns exactly 5 reviews — a constant independent of the product — each
with a rating in 1..5 and non-empty generated text, sorted with the newest
date first. -/
theorem scrapeReviews_spec (rng : Rng) (productName : String) (now : ℤ)
    (hrng : RngValid rng) :
    (scrapeReviews rng productName now).length = 5 ∧
    (∀ r ∈ scrapeReviews rng productName now,
        1 ≤ r.rating ∧ r.rating ≤ 5 ∧ r.text ≠ "") ∧
    DateSorted (scrapeReviews rng productName now) := by
  refine ⟨?_, ?_, ?_⟩
  · unfold scrapeReviews
    rw [sortByDateDesc_length, scrapeLoop_length]
  · intro r hr
    unfold scrapeReviews at hr
    rw [mem_sortByDateDesc] at hr
    exact scrapeLoop_rating_text rng hrng productName now 5 0 0 r hr
  · exact sortByDateDesc_sorted _

/-- A concrete valid random stream. -/
def demoRng : Rng := fun _ => 1 / 2

/-- Witness for C9 on the constant one-half random stream. -/
theorem scrapeReviews_spec_witness :
    RngValid demoRng ∧ (scrapeReviews demoRng "Phone" 0).length = 5 := by
  have hv : RngValid demoRng := by
    intro n
    constructor <;> norm_num [demoRng]
  exact ⟨hv, (scrapeReviews_spec demoRng "Phone" 0 hv).1⟩

/-- C10: calculateAndStoreScore on the empty score list does not fail — it
returns (and stores, as the string "NaN") the average 0/0 = NaN; a finite
average is guaranteed whenever the score list is non-empty and all its
elements are finite numbers. -/
theorem calculateAndStoreScore_empty_nan (st : Store) (uuid : String) :
    (calculateAndStoreScore st uuid []).1.averageScore = JSNum.nan ∧
    (calculateAndStoreScore st uuid []).2 ("score:" ++ uuid) = some "NaN" ∧
    (∀ qs : List ℚ, qs ≠ [] →
        (averageScoreOf (qs.map JSNum.num)).isFinite = true) := by
  refine ⟨rfl, ?_, ?_⟩
  · simp [calculateAndStoreScore, storeSet]
    rfl
  · intro qs h
    rw [averageScoreOf_map_num qs h]
    rfl

/-- Witness for C10: empty list gives NaN; the singleton [7] gives a finite
average. -/
theorem calculateAndStoreScore_empty_nan_witness :
    (calculateAndStoreScore emptyStore "p2" []).1.averageScore = JSNum.nan ∧
    ([(7 : ℚ)] ≠ [] ∧ (averageScoreOf ([(7 : ℚ)].map JSNum.num)).isFinite = true) := by
  have h := calculateAndStoreScore_empty_nan emptyStore "p2"
  exact ⟨h.1, by simp, h.2.2 [(7 : ℚ)] (by simp)⟩

/-- Witness for C6 at a missing productName. -/
theorem postAnalyzeSentiment_badRequest_iff_witness :
    (postAnalyzeSentiment none 0 true).1.isBadRequest = true ∧
    (postAnalyzeSentiment none 0 true).2 = none := by
  have h := postAnalyzeSentiment_badRequest_iff none 0 true
  have hb : (postAnalyzeSentiment none 0 true).1.isBadRequest = true := h.1.mpr (Or.inl rfl)
  exact ⟨hb, h.2 hb⟩
